import Mathlib

/-!
Shallow embedding of `src/main.py`: a FastAPI backend exposing CRUD over a
single "task" collection in a Mongo-style document store, plus diagnostics.

Documents are modelled as association lists from string keys to `Value`s
(Python dict semantics: unique keys, insertion order preserved).  The store
state is the task collection: a list of `(_id, fields)` pairs plus the id
generator.  Time is an explicit `Nat` parameter (`datetime.utcnow()`).
The external `bson.ObjectId` codec is modelled as a 24-hex-digit rendering
of a `Nat`, faithful to spec §9's bidirectional-codec abstraction.
-/

/-- A BSON-ish value as it appears in stored documents and responses. -/
inductive Value where
  | oid : Nat → Value
  | str : String → Value
  | dt : Nat → Value
  | bool : Bool → Value
  | null : Value
deriving DecidableEq, Repr

/-- A document: a Python dict, keys unique, insertion order kept. -/
abbrev Doc := List (String × Value)

/-- Python `d.get k` on a dict: first (only) binding of `k`. -/
def getKey : Doc → String → Option Value
  | [], _ => none
  | (k', v) :: rest, k => if k' = k then some v else getKey rest k

/-- Python `d.get(k, default)`. -/
def getD (d : Doc) (k : String) (dflt : Value) : Value :=
  (getKey d k).getD dflt

/-- Python `d[k] = v`: replace in place if present, else append (dict order). -/
def setKey : Doc → String → Value → Doc
  | [], k, v => [(k, v)]
  | (k', v') :: rest, k, v =>
      if k' = k then (k, v) :: rest else (k', v') :: setKey rest k v

/-- Python `del d[k]`: remove the binding of `k`. -/
def delKey : Doc → String → Doc
  | [], _ => []
  | (k', v') :: rest, k =>
      if k' = k then rest else (k', v') :: delKey rest k

/-- Python truthiness of a `Value` (`not doc.get("completed", False)`). -/
def truthy : Value → Bool
  | .oid _ => true
  | .str s => s ≠ ""
  | .dt _ => true
  | .bool b => b
  | .null => false

/- ### The ObjectId string codec (external `bson` library)

Modelled from the spec: §9 abstracts the store identifier as a bidirectional
codec `parse(string) -> Identifier | InvalidFormatError`,
`toString(Identifier) -> string`.  `bson.ObjectId` accepts exactly 24-char
hex strings; we render a `Nat` identifier as 24 lowercase hex digits. -/

/-- Lowercase hex digit for `n < 16`. -/
def hexChar (n : Nat) : Char :=
  if n < 10 then Char.ofNat (48 + n) else Char.ofNat (87 + n)

/-- Numeric value of a hex digit character. -/
def hexVal (c : Char) : Nat :=
  if c.isDigit then c.toNat - 48
  else if 'a' ≤ c ∧ c ≤ 'f' then c.toNat - 87
  else c.toNat - 55

/-- Is `c` a hex digit? -/
def isHexDigit (c : Char) : Bool :=
  c.isDigit || ('a' ≤ c && c ≤ 'f') || ('A' ≤ c && c ≤ 'F')

/-- Little-endian hex digits of `n`, exactly `w` of them. -/
def toHexList : Nat → Nat → List Char
  | 0, _ => []
  | w + 1, n => hexChar (n % 16) :: toHexList w (n / 16)

/-- Value of a little-endian hex digit list. -/
def parseLE : List Char → Nat
  | [] => 0
  | c :: cs => hexVal c + 16 * parseLE cs

/-- The rendering `str(ObjectId)`: 24 lowercase hex chars, big-endian. -/
def oidToString (n : Nat) : String :=
  String.mk (toHexList 24 n).reverse

/-- The parser `ObjectId(s)`: succeeds exactly on 24-char hex strings. -/
def parseObjectId (s : String) : Option Nat :=
  if s.data.length = 24 && s.data.all isHexDigit then
    some (parseLE s.data.reverse)
  else
    none

theorem hexVal_hexChar (d : Nat) (hd : d < 16) : hexVal (hexChar d) = d := by
  have : ∀ x : Fin 16, hexVal (hexChar x.val) = x.val := by decide
  exact this ⟨d, hd⟩

theorem isHexDigit_hexChar (d : Nat) (hd : d < 16) : isHexDigit (hexChar d) = true := by
  have : ∀ x : Fin 16, isHexDigit (hexChar x.val) = true := by decide
  exact this ⟨d, hd⟩

theorem toHexList_length (w n : Nat) : (toHexList w n).length = w := by
  induction w generalizing n with
  | zero => rfl
  | succ w ih => simp [toHexList, ih]

theorem toHexList_all_hex (w n : Nat) : (toHexList w n).all isHexDigit = true := by
  induction w generalizing n with
  | zero => rfl
  | succ w ih =>
      simp only [toHexList, List.all_cons, Bool.and_eq_true]
      exact ⟨isHexDigit_hexChar _ (Nat.mod_lt _ (by norm_num)), ih _⟩

theorem parseLE_toHexList (w n : Nat) (h : n < 16 ^ w) :
    parseLE (toHexList w n) = n := by
  induction w generalizing n with
  | zero =>
      simp [pow_zero, Nat.lt_one_iff] at h
      simp [h, toHexList, parseLE]
  | succ w ih =>
      have hdiv : n / 16 < 16 ^ w := by
        rw [Nat.div_lt_iff_lt_mul (by norm_num)]
        calc n < 16 ^ (w + 1) := h
          _ = 16 ^ w * 16 := by ring
      simp only [toHexList, parseLE, ih _ hdiv,
        hexVal_hexChar _ (Nat.mod_lt _ (by norm_num))]
      omega

theorem parseObjectId_oidToString (n : Nat) (h : n < 16 ^ 24) :
    parseObjectId (oidToString n) = some n := by
  have hlen : (toHexList 24 n).reverse.length = 24 := by
    rw [List.length_reverse, toHexList_length]
  have hall : (toHexList 24 n).reverse.all isHexDigit = true := by
    rw [List.all_reverse]; exact toHexList_all_hex 24 n
  simp only [parseObjectId, oidToString, hlen, hall, List.reverse_reverse,
    Bool.and_self, if_pos]
  simp [parseLE_toHexList 24 n h]

theorem oidToString_injOn (m n : Nat) (hm : m < 16 ^ 24) (hn : n < 16 ^ 24)
    (h : oidToString m = oidToString n) : m = n := by
  have := parseObjectId_oidToString m hm
  rw [h, parseObjectId_oidToString n hn] at this
  exact (Option.some.injEq _ _).mp this.symm

theorem oidToString_ne_empty (n : Nat) : oidToString n ≠ "" := by
  intro h
  have : (oidToString n).data.length = 24 := by
    simp [oidToString, toHexList_length]
  rw [h] at this
  simp at this

/- ### Serialization layer (`serialize_doc`, src/main.py lines 24-36) -/

/-- The rendering `datetime.isoformat()` of the external datetime library, modelled as an
injective rendering of the timestamp. -/
def isoformat (t : Nat) : String := "1970-01-01T00:00:00+" ++ Nat.repr t

/-- One value under the datetime-to-isoformat loop of lines 33-35. -/
def convVal : Value → Value
  | .dt t => .str (isoformat t)
  | v => v

/-- Lines 33-35: rewrite every datetime value to its isoformat string. -/
def serializeFields (d : Doc) : Doc :=
  d.map (fun kv => (kv.1, convVal kv.2))

/-- Body of `serialize_doc` on a non-empty dict (lines 27-36): if `_id` is an
`ObjectId`, store its string form under `id` and drop `_id`; then rewrite
datetimes. -/
def serializeCore (d : Doc) : Doc :=
  let d1 :=
    match getKey d "_id" with
    | some (.oid n) => delKey (setKey d "id" (.str (oidToString n))) "_id"
    | _ => d
  serializeFields d1

/-- Function `serialize_doc` (lines 24-36); the falsy guard of line 25 returns `None`
and the empty dict unchanged. -/
def serialize_doc : Option Doc → Option Doc
  | none => none
  | some d => if d = [] then some d else some (serializeCore d)

/- ### The task store (`db[TASK_COLLECTION]`) -/

/-- The task collection plus the store's id generator: `docs` maps each
document's `_id` to its other fields (every fresh `_id` is drawn from
`nextId`, so stored ids are `< nextId` and mutually distinct). -/
structure StoreState where
  docs : List (Nat × Doc)
  nextId : Nat
deriving Repr

/-- Store invariant: issued ids are below the generator and unique. -/
def StoreInv (st : StoreState) : Prop :=
  (∀ q ∈ st.docs, q.1 < st.nextId) ∧ (st.docs.map Prod.fst).Nodup

/-- Query `find_one({"_id": oid})`: the document, with `_id` as its first key. -/
def findOne (st : StoreState) (oid : Nat) : Option Doc :=
  (st.docs.find? (fun p => p.1 = oid)).map (fun p => ("_id", Value.oid p.1) :: p.2)

/-- Fields (without `_id`) of the stored document with identifier `oid`. -/
def storedFields (st : StoreState) (oid : Nat) : Option Doc :=
  (st.docs.find? (fun p => p.1 = oid)).map Prod.snd

/-- Application of the `$set` update document: apply each binding in order. -/
def applySet (d : Doc) (upd : Doc) : Doc :=
  upd.foldl (fun acc kv => setKey acc kv.1 kv.2) d

/-- Call `update_one({"_id": oid}, {"$set": upd})`: `matched_count` and new state. -/
def updateOne (st : StoreState) (oid : Nat) (upd : Doc) : Nat × StoreState :=
  if st.docs.any (fun p => p.1 = oid) then
    (1, { st with
          docs := st.docs.map (fun p => if p.1 = oid then (p.1, applySet p.2 upd) else p) })
  else
    (0, st)

/-- Remove the first document matching `oid` (`delete_one` touches at most one). -/
def removeFirst : List (Nat × Doc) → Nat → List (Nat × Doc)
  | [], _ => []
  | p :: rest, oid => if p.1 = oid then rest else p :: removeFirst rest oid

/-- Call `delete_one({"_id": oid})`: `deleted_count` and new state. -/
def deleteOne (st : StoreState) (oid : Nat) : Nat × StoreState :=
  if st.docs.any (fun p => p.1 = oid) then
    (1, { st with docs := removeFirst st.docs oid })
  else
    (0, st)

/- ### Request/response plumbing -/

/-- Exception `HTTPException(status_code, detail)` as raised by the handlers. -/
inductive Err where
  | badRequest : String → Err
  | notFound : String → Err
deriving DecidableEq, Repr

/-- A handler outcome: the raised exception or the response body, paired with
the store state after the call. -/
abbrev HResult (α : Type) := Except Err α × StoreState

/-- Model `TaskCreate` (lines 87-90); pydantic enforces title length 1-200 and
notes length ≤ 2000 before the handler runs. -/
structure TaskCreate where
  title : String
  notes : Option String
  due_at : Option Nat
deriving Repr

/-- Model `TaskUpdate` (lines 92-96): every field optional, `None` when absent. -/
structure TaskUpdate where
  title : Option String
  notes : Option String
  due_at : Option Nat
  completed : Option Bool
deriving Repr

/-- Dump `payload.model_dump().items()` for `TaskUpdate`: field order of the model,
`none` for fields the request body omitted (or set to null). -/
def dumpUpdate (p : TaskUpdate) : List (String × Option Value) :=
  [("title", p.title.map .str), ("notes", p.notes.map .str),
   ("due_at", p.due_at.map .dt), ("completed", p.completed.map .bool)]

/-- Line 138: `{k: v for k, v in payload.model_dump().items() if v is not None}`. -/
def updateData (p : TaskUpdate) : Doc :=
  (dumpUpdate p).filterMap (fun kv => kv.2.map (fun v => (kv.1, v)))

/- ### The Task schema and store adapter (imported modules) -/

/-- Modelled from the spec: `schemas.Task` (imported at line 10, module not in
the repository snapshot; named `TaskModel` since `Task` exists in Lean core).  Spec §3: a task has `title`, optional `notes`,
optional `due_at`, and boolean `completed`; the timestamps are store-side
defaults assigned at creation. -/
structure TaskModel where
  title : String
  notes : Option String
  due_at : Option Nat
  completed : Bool
deriving Repr

/-- Value `None` for an absent optional string, else the string. -/
def optStr : Option String → Value
  | none => .null
  | some s => .str s

/-- Value `None` for an absent optional timestamp, else the datetime. -/
def optDt : Option Nat → Value
  | none => .null
  | some t => .dt t

/-- Modelled from the spec: `database.create_document` (imported at line 9,
module not in the repository snapshot).  Spec §2/§3/§4.3: `insert(collection,
document) -> id`; the server assigns a fresh identifier and the creation
timestamps (`created_at` set once at creation, `updated_at` on every
mutation), with the task's fields persisted as given. -/
def create_document (t : TaskModel) (now : Nat) (st : StoreState) : Nat × StoreState :=
  let fields : Doc :=
    [("title", .str t.title), ("notes", optStr t.notes), ("due_at", optDt t.due_at),
     ("completed", .bool t.completed), ("created_at", .dt now), ("updated_at", .dt now)]
  (st.nextId, { docs := st.docs ++ [(st.nextId, fields)], nextId := st.nextId + 1 })

/- ### Task resource handlers (src/main.py lines 100-157) -/

/-- Handler `create_task` (lines 105-116): build a `Task` with `completed=False`,
persist it, re-fetch the inserted document by the returned id, serialize. -/
def create_task (payload : TaskCreate) (now : Nat) (st : StoreState) :
    Option Doc × StoreState :=
  let data : TaskModel :=
    { title := payload.title, notes := payload.notes, due_at := payload.due_at,
      completed := false }
  let res := create_document data now st
  let doc := findOne res.2 res.1
  (serialize_doc doc, res.2)

/-- Handler `toggle_task` (lines 118-130): parse the id (400 on failure), fetch (404
when absent), flip the truthiness of `completed` (default `False`), `$set`
`completed` and `updated_at`, re-fetch, serialize. -/
def toggle_task (task_id : String) (now : Nat) (st : StoreState) :
    HResult (Option Doc) :=
  match parseObjectId task_id with
  | none => (.error (.badRequest "Invalid task id"), st)
  | some oid =>
    match findOne st oid with
    | none => (.error (.notFound "Task not found"), st)
    | some doc =>
      let new_completed := !truthy (getD doc "completed" (.bool false))
      let res := updateOne st oid
        [("completed", .bool new_completed), ("updated_at", .dt now)]
      let updated := findOne res.2 oid
      (.ok (serialize_doc updated), res.2)

/-- Handler `update_task` (lines 132-146): parse the id (400 on failure), drop the
`None` fields of the payload (400 when nothing remains), add `updated_at`,
`$set` on the matching document (404 when none matched), re-fetch, serialize. -/
def update_task (task_id : String) (payload : TaskUpdate) (now : Nat)
    (st : StoreState) : HResult (Option Doc) :=
  match parseObjectId task_id with
  | none => (.error (.badRequest "Invalid task id"), st)
  | some oid =>
    let ud := updateData payload
    if ud = [] then (.error (.badRequest "No fields to update"), st)
    else
      let ud' := setKey ud "updated_at" (.dt now)
      let res := updateOne st oid ud'
      if res.1 = 0 then (.error (.notFound "Task not found"), res.2)
      else
        let updated := findOne res.2 oid
        (.ok (serialize_doc updated), res.2)

/-- Handler `delete_task` (lines 148-157): parse the id (400 on failure), delete the
matching document (404 when `deleted_count` is 0), answer `{success: true}`. -/
def delete_task (task_id : String) (st : StoreState) : HResult Bool :=
  match parseObjectId task_id with
  | none => (.error (.badRequest "Invalid task id"), st)
  | some oid =>
    let res := deleteOne st oid
    if res.1 = 0 then (.error (.notFound "Task not found"), res.2)
    else (.ok true, res.2)

/- ### Diagnostics (`test_database`, src/main.py lines 46-81) -/

/-- Observable condition of the module-global `db` handle: `unavailable`
(`db is None`), `failing` (`list_collection_names` raises, with the
exception's message), or `healthy` (it returns the collection names). -/
inductive DbState where
  | unavailable : DbState
  | failing : String → DbState
  | healthy : List String → DbState
deriving Repr

/-- Whether `DATABASE_URL` / `DATABASE_NAME` are set in the environment. -/
structure Env where
  database_url_set : Bool
  database_name_set : Bool
deriving Repr

/-- The diagnostics response object built by `test_database`. -/
structure TestResponse where
  backend : String
  database : String
  database_url : String
  database_name : String
  connection_status : String
  collections : List String
deriving Repr

/-- Handler `test_database` (lines 46-81): start from the pessimistic response, probe
the db handle with every exception caught into status text, truncate the
collection list to 10, then report env-var presence (overwriting the url/name
fields).  The store state is threaded through untouched: the endpoint only
reads. -/
def test_database (dbs : DbState) (env : Env) (st : StoreState) :
    TestResponse × StoreState :=
  let base : TestResponse :=
    { backend := "✅ Running", database := "❌ Not Available",
      database_url := "None", database_name := "None",
      connection_status := "Not Connected", collections := [] }
  let probed : TestResponse :=
    match dbs with
    | .unavailable => { base with database := "⚠️  Available but not initialized" }
    | .failing msg =>
        { base with
          database := "⚠️  Connected but Error: " ++ msg.take 50,
          database_url := "✅ Configured", database_name := "✅ Connected",
          connection_status := "Connected" }
    | .healthy cols =>
        { base with
          database := "✅ Connected & Working",
          database_url := "✅ Configured", database_name := "✅ Connected",
          connection_status := "Connected", collections := cols.take 10 }
  let final : TestResponse :=
    { probed with
      database_url := if env.database_url_set then "✅ Set" else "❌ Not Set",
      database_name := if env.database_name_set then "✅ Set" else "❌ Not Set" }
  (final, st)

/- ### Dictionary lemmas -/

theorem getKey_setKey_self (d : Doc) (k : String) (v : Value) :
    getKey (setKey d k v) k = some v := by
  induction d with
  | nil => simp [setKey, getKey]
  | cons kv rest ih =>
      by_cases h : kv.1 = k
      · simp [setKey, getKey, h]
      · simp [setKey, getKey, h, ih]

theorem getKey_setKey_ne (d : Doc) (k k' : String) (v : Value) (h : k' ≠ k) :
    getKey (setKey d k v) k' = getKey d k' := by
  have hkk : ¬ k = k' := fun hh => h hh.symm
  induction d with
  | nil => simp [setKey, getKey, hkk]
  | cons kv rest ih =>
      by_cases hk : kv.1 = k
      · simp [setKey, getKey, hk, hkk]
      · simp only [setKey, hk, if_false, getKey]
        by_cases hk' : kv.1 = k' <;> simp [hk', ih]

theorem getKey_delKey_ne (d : Doc) (k k' : String) (h : k' ≠ k) :
    getKey (delKey d k) k' = getKey d k' := by
  have hkk : ¬ k = k' := fun hh => h hh.symm
  induction d with
  | nil => simp [delKey]
  | cons kv rest ih =>
      by_cases hk : kv.1 = k
      · simp [delKey, getKey, hk, hkk]
      · simp only [delKey, hk, if_false, getKey]
        by_cases hk' : kv.1 = k' <;> simp [hk', ih]

theorem getKey_eq_none_of_not_mem (d : Doc) (k : String)
    (h : k ∉ d.map Prod.fst) : getKey d k = none := by
  induction d with
  | nil => rfl
  | cons kv rest ih =>
      simp only [List.map_cons, List.mem_cons] at h
      push_neg at h
      have h1 : ¬ kv.1 = k := fun hh => h.1 hh.symm
      simp [getKey, h1, ih h.2]

theorem getKey_delKey_self (d : Doc) (k : String)
    (hnd : (d.map Prod.fst).Nodup) : getKey (delKey d k) k = none := by
  induction d with
  | nil => rfl
  | cons kv rest ih =>
      simp only [List.map_cons, List.nodup_cons] at hnd
      by_cases hk : kv.1 = k
      · simp only [delKey, hk, if_pos]
        exact getKey_eq_none_of_not_mem rest k (hk ▸ hnd.1)
      · simp [delKey, getKey, hk, ih hnd.2]

theorem keys_setKey (d : Doc) (k : String) (v : Value) :
    (setKey d k v).map Prod.fst =
      if k ∈ d.map Prod.fst then d.map Prod.fst else d.map Prod.fst ++ [k] := by
  induction d with
  | nil => simp [setKey]
  | cons kv rest ih =>
      by_cases hk : kv.1 = k
      · simp [setKey, hk]
      · have hk2 : ¬ k = kv.1 := fun hh => hk hh.symm
        simp only [setKey, hk, if_false, List.map_cons, ih, List.mem_cons]
        by_cases hm : k ∈ rest.map Prod.fst <;> simp [hm, hk2]

theorem nodup_keys_setKey (d : Doc) (k : String) (v : Value)
    (hnd : (d.map Prod.fst).Nodup) : ((setKey d k v).map Prod.fst).Nodup := by
  rw [keys_setKey]
  by_cases hm : k ∈ d.map Prod.fst
  · simpa [hm]
  · simpa [hm, List.nodup_append] using hnd

theorem getKey_serializeFields (d : Doc) (k : String) :
    getKey (serializeFields d) k = (getKey d k).map convVal := by
  induction d with
  | nil => rfl
  | cons kv rest ih =>
      simp only [serializeFields, List.map_cons, getKey] at ih ⊢
      by_cases hk : kv.1 = k <;> simp [hk, ih]

theorem getKey_applySet_not_mem (d : Doc) (upd : Doc) (k : String)
    (h : k ∉ upd.map Prod.fst) : getKey (applySet d upd) k = getKey d k := by
  induction upd generalizing d with
  | nil => rfl
  | cons kv rest ih =>
      simp only [List.map_cons, List.mem_cons] at h
      push_neg at h
      simp only [applySet, List.foldl_cons]
      rw [show (List.foldl (fun acc kv => setKey acc kv.1 kv.2) (setKey d kv.1 kv.2) rest)
            = applySet (setKey d kv.1 kv.2) rest from rfl,
        ih _ h.2, getKey_setKey_ne _ _ _ _ h.1]

theorem getKey_applySet_mem (d : Doc) (upd : Doc) (k : String) (v : Value)
    (hnd : (upd.map Prod.fst).Nodup) (h : (k, v) ∈ upd) :
    getKey (applySet d upd) k = some v := by
  induction upd generalizing d with
  | nil => exact absurd h (List.not_mem_nil _)
  | cons kv rest ih =>
      simp only [List.map_cons, List.nodup_cons] at hnd
      simp only [applySet, List.foldl_cons]
      rw [show (List.foldl (fun acc kv => setKey acc kv.1 kv.2) (setKey d kv.1 kv.2) rest)
            = applySet (setKey d kv.1 kv.2) rest from rfl]
      rcases List.mem_cons.mp h with heq | hmem
      · obtain ⟨hk1, hv1⟩ : kv.1 = k ∧ kv.2 = v := by
          rw [← heq]; exact ⟨rfl, rfl⟩
        rw [hk1, hv1]
        have hk : k ∉ rest.map Prod.fst := hk1 ▸ hnd.1
        rw [getKey_applySet_not_mem _ _ _ hk, getKey_setKey_self]
      · exact ih _ hnd.2 hmem

/- ### Store lemmas -/

/-- The stored value of field `k` of the document with identifier `oid`. -/
def taskField (st : StoreState) (oid : Nat) (k : String) : Option Value :=
  (storedFields st oid).bind (fun d => getKey d k)

theorem find?_map_set (l : List (Nat × Doc)) (oid : Nat) (upd : Doc)
    (q : Nat × Doc) (h : l.find? (fun p => p.1 = oid) = some q) :
    (l.map (fun p => if p.1 = oid then (p.1, applySet p.2 upd) else p)).find?
      (fun p => p.1 = oid) = some (q.1, applySet q.2 upd) := by
  induction l with
  | nil => simp at h
  | cons p rest ih =>
      by_cases hp : p.1 = oid
      · rw [List.find?_cons_of_pos _ (by simp [hp])] at h
        simp only [List.map_cons, if_pos hp]
        rw [List.find?_cons_of_pos _ (by simp [hp])]
        rw [(Option.some.injEq _ _).mp h]
      · rw [List.find?_cons_of_neg _ (by simp [hp])] at h
        simp only [List.map_cons, if_neg hp]
        rw [List.find?_cons_of_neg _ (by simp [hp])]
        exact ih h

theorem any_of_find?_some (l : List (Nat × Doc)) (oid : Nat) (q : Nat × Doc)
    (h : l.find? (fun p => p.1 = oid) = some q) :
    l.any (fun p => p.1 = oid) = true := by
  have hm := List.mem_of_find?_eq_some h
  have hq := List.find?_some h
  exact List.any_eq_true.mpr ⟨q, hm, hq⟩

theorem storedFields_updateOne (st : StoreState) (oid : Nat) (upd d : Doc)
    (h : storedFields st oid = some d) :
    storedFields (updateOne st oid upd).2 oid = some (applySet d upd) ∧
      (updateOne st oid upd).1 = 1 := by
  unfold storedFields at h
  cases hf : st.docs.find? (fun p => p.1 = oid) with
  | none => rw [hf] at h; simp at h
  | some q =>
      rw [hf] at h
      have hqd : q.2 = d := by simpa using h
      have hany := any_of_find?_some _ _ _ hf
      unfold updateOne
      simp only [hany, if_true]
      refine ⟨?_, trivial⟩
      unfold storedFields
      simp only
      rw [find?_map_set _ _ upd _ hf]
      simp [hqd]

theorem storedFields_updateOne_none (st : StoreState) (oid : Nat) (upd : Doc)
    (h : storedFields st oid = none) : updateOne st oid upd = (0, st) := by
  unfold storedFields at h
  cases hf : st.docs.find? (fun p => p.1 = oid) with
  | some q => rw [hf] at h; simp at h
  | none =>
      have hany : st.docs.any (fun p => p.1 = oid) = false := by
        rw [List.any_eq_false]
        intro p hp
        exact List.find?_eq_none.mp hf p hp
      simp [updateOne, hany]

theorem findOne_eq_storedFields (st : StoreState) (oid : Nat) :
    findOne st oid = (storedFields st oid).map
      (fun d => ("_id", Value.oid oid) :: d) := by
  unfold findOne storedFields
  cases hf : st.docs.find? (fun p => p.1 = oid) with
  | none => rfl
  | some q =>
      have hq : q.1 = oid := by simpa using List.find?_some hf
      simp [hq]

theorem find?_append_new (l : List (Nat × Doc)) (oid : Nat) (d : Doc)
    (h : ∀ p ∈ l, p.1 ≠ oid) :
    (l ++ [(oid, d)]).find? (fun p => p.1 = oid) = some (oid, d) := by
  induction l with
  | nil => simp [List.find?]
  | cons p rest ih =>
      have hp : ¬ p.1 = oid := h p (List.mem_cons_self _ _)
      rw [List.cons_append, List.find?_cons_of_neg _ (by simp [hp])]
      exact ih (fun q hq => h q (List.mem_cons_of_mem _ hq))

theorem removeFirst_find?_none (l : List (Nat × Doc)) (oid : Nat)
    (hnd : (l.map Prod.fst).Nodup) :
    (removeFirst l oid).find? (fun p => p.1 = oid) = none := by
  induction l with
  | nil => rfl
  | cons p rest ih =>
      simp only [List.map_cons, List.nodup_cons] at hnd
      by_cases hp : p.1 = oid
      · simp only [removeFirst, hp, if_pos]
        rw [List.find?_eq_none]
        intro q hq
        simp only [decide_eq_true_eq]
        intro hqe
        exact hnd.1 (hp ▸ hqe ▸ List.mem_map_of_mem Prod.fst hq)
      · simp only [removeFirst, hp, if_false]
        rw [List.find?_cons_of_neg _ (by simp [hp])]
        exact ih hnd.2

/- ### Update-filter lemmas -/

theorem setKey_not_mem_eq_append (d : Doc) (k : String) (v : Value)
    (h : k ∉ d.map Prod.fst) : setKey d k v = d ++ [(k, v)] := by
  induction d with
  | nil => rfl
  | cons kv rest ih =>
      simp only [List.map_cons, List.mem_cons] at h
      push_neg at h
      have h1 : ¬ kv.1 = k := fun hh => h.1 hh.symm
      simp [setKey, h1, ih h.2]

theorem updateData_keys_nodup (p : TaskUpdate) :
    ((updateData p).map Prod.fst).Nodup := by
  rcases p with ⟨t, n, d, c⟩
  cases t <;> cases n <;> cases d <;> cases c <;>
    simp [updateData, dumpUpdate]

theorem updated_at_not_mem_updateData (p : TaskUpdate) :
    "updated_at" ∉ (updateData p).map Prod.fst := by
  rcases p with ⟨t, n, d, c⟩
  cases t <;> cases n <;> cases d <;> cases c <;>
    simp [updateData, dumpUpdate]

theorem dumpUpdate_key_ne_updated_at (p : TaskUpdate)
    (kv : String × Option Value) (h : kv ∈ dumpUpdate p) :
    kv.1 ≠ "updated_at" := by
  simp only [dumpUpdate, List.mem_cons, List.not_mem_nil, or_false] at h
  rcases h with rfl | rfl | rfl | rfl <;> simp

theorem dumpUpdate_key_inj (p : TaskUpdate) (a b : String × Option Value)
    (ha : a ∈ dumpUpdate p) (hb : b ∈ dumpUpdate p) (h : a.1 = b.1) : a = b := by
  simp only [dumpUpdate, List.mem_cons, List.not_mem_nil, or_false] at ha hb
  rcases ha with rfl | rfl | rfl | rfl <;>
    rcases hb with rfl | rfl | rfl | rfl <;> simp_all

theorem mem_updateData_of_some (p : TaskUpdate) (kv : String × Option Value)
    (hmem : kv ∈ dumpUpdate p) (v : Value) (hv : kv.2 = some v) :
    (kv.1, v) ∈ updateData p := by
  unfold updateData
  exact List.mem_filterMap.mpr ⟨kv, hmem, by rw [hv]; rfl⟩

theorem not_mem_updateData_of_none (p : TaskUpdate) (kv : String × Option Value)
    (hmem : kv ∈ dumpUpdate p) (hnone : kv.2 = none) :
    kv.1 ∉ (updateData p).map Prod.fst := by
  intro hk
  rw [List.mem_map] at hk
  obtain ⟨b, hb, hb1⟩ := hk
  unfold updateData at hb
  rw [List.mem_filterMap] at hb
  obtain ⟨a, ha, hfa⟩ := hb
  cases ha2 : a.2 with
  | none => rw [ha2] at hfa; simp at hfa
  | some v =>
      rw [ha2] at hfa
      simp only [Option.map_some'] at hfa
      have hb2 : (a.1, v) = b := Option.some.inj hfa
      have hab : a.1 = kv.1 := by rw [← hb1, ← hb2]
      have := dumpUpdate_key_inj p a kv ha hmem hab
      rw [this] at ha2
      rw [hnone] at ha2
      exact Option.noConfusion ha2

theorem mem_updateData_keys_iff (p : TaskUpdate) (kv : String × Option Value)
    (hmem : kv ∈ dumpUpdate p) :
    kv.1 ∈ (updateData p).map Prod.fst ↔ kv.2 ≠ none := by
  constructor
  · intro hk hnone
    exact not_mem_updateData_of_none p kv hmem hnone hk
  · intro hne
    cases hv : kv.2 with
    | none => exact absurd hv hne
    | some v =>
        exact List.mem_map.mpr ⟨(kv.1, v), mem_updateData_of_some p kv hmem v hv, rfl⟩

theorem deleteOne_of_none (st : StoreState) (oid : Nat)
    (h : storedFields st oid = none) : deleteOne st oid = (0, st) := by
  unfold storedFields at h
  cases hf : st.docs.find? (fun p => p.1 = oid) with
  | some q => rw [hf] at h; simp at h
  | none =>
      have hany : st.docs.any (fun p => p.1 = oid) = false := by
        rw [List.any_eq_false]
        intro p hp
        exact List.find?_eq_none.mp hf p hp
      simp [deleteOne, hany]

theorem deleteOne_of_some (st : StoreState) (oid : Nat) (d : Doc)
    (h : storedFields st oid = some d) :
    deleteOne st oid = (1, { st with docs := removeFirst st.docs oid }) := by
  unfold storedFields at h
  cases hf : st.docs.find? (fun p => p.1 = oid) with
  | none => rw [hf] at h; simp at h
  | some q =>
      have hany := any_of_find?_some _ _ _ hf
      simp [deleteOne, hany]

theorem storedFields_removeFirst_none (st : StoreState) (oid : Nat)
    (hnd : (st.docs.map Prod.fst).Nodup) :
    storedFields { st with docs := removeFirst st.docs oid } oid = none := by
  unfold storedFields
  rw [removeFirst_find?_none _ _ hnd]
  rfl

/- ### Handler stepping lemmas -/

theorem toggle_task_parsed (s : String) (oid now : Nat) (st : StoreState)
    (hpid : parseObjectId s = some oid) :
    toggle_task s now st =
      match findOne st oid with
      | none => (.error (.notFound "Task not found"), st)
      | some doc =>
          let nc := !truthy (getD doc "completed" (.bool false))
          let res := updateOne st oid [("completed", .bool nc), ("updated_at", .dt now)]
          (.ok (serialize_doc (findOne res.2 oid)), res.2) := by
  unfold toggle_task
  rw [hpid]

theorem update_task_parsed (s : String) (oid : Nat) (p : TaskUpdate) (now : Nat)
    (st : StoreState) (hpid : parseObjectId s = some oid) :
    update_task s p now st =
      if updateData p = [] then (.error (.badRequest "No fields to update"), st)
      else
        let res := updateOne st oid (setKey (updateData p) "updated_at" (.dt now))
        if res.1 = 0 then (.error (.notFound "Task not found"), res.2)
        else (.ok (serialize_doc (findOne res.2 oid)), res.2) := by
  unfold update_task
  rw [hpid]

theorem toggle_task_unparsed (s : String) (now : Nat) (st : StoreState)
    (h : parseObjectId s = none) :
    toggle_task s now st = (.error (.badRequest "Invalid task id"), st) := by
  unfold toggle_task
  rw [h]

theorem update_task_unparsed (s : String) (p : TaskUpdate) (now : Nat)
    (st : StoreState) (h : parseObjectId s = none) :
    update_task s p now st = (.error (.badRequest "Invalid task id"), st) := by
  unfold update_task
  rw [h]

theorem delete_task_unparsed (s : String) (st : StoreState)
    (h : parseObjectId s = none) :
    delete_task s st = (.error (.badRequest "Invalid task id"), st) := by
  unfold delete_task
  rw [h]

theorem delete_task_parsed (s : String) (oid : Nat) (st : StoreState)
    (hpid : parseObjectId s = some oid) :
    delete_task s st =
      if (deleteOne st oid).1 = 0
      then (.error (.notFound "Task not found"), (deleteOne st oid).2)
      else (.ok true, (deleteOne st oid).2) := by
  unfold delete_task
  rw [hpid]

/- ### Claims -/

/-- C2: for a well-formed identifier, an update whose computed update set is
empty is rejected with the 400 client error "No fields to update" and the
store is left untouched: `update_task` returns the error with the state
unchanged, so every stored document is unchanged. -/
theorem update_task_empty_set_rejected
    (task_id : String) (p : TaskUpdate) (now : Nat) (st : StoreState) (oid : Nat)
    (hpid : parseObjectId task_id = some oid)
    (hempty : updateData p = []) :
    update_task task_id p now st
      = (.error (.badRequest "No fields to update"), st) := by
  rw [update_task_parsed task_id oid p now st hpid, if_pos hempty]

theorem update_task_empty_set_rejected_witness :
    update_task (oidToString 7) ⟨none, none, none, none⟩ 5
        ⟨[(7, [("title", .str "a")])], 8⟩
      = (.error (.badRequest "No fields to update"),
         ⟨[(7, [("title", .str "a")])], 8⟩) :=
  update_task_empty_set_rejected (oidToString 7) ⟨none, none, none, none⟩ 5
    ⟨[(7, [("title", .str "a")])], 8⟩ 7
    (parseObjectId_oidToString 7 (by norm_num)) rfl

/-- C7: toggle, update and delete each answer the 400 client error
"Invalid task id" with the store untouched whenever the identifier fails to
parse, and whenever one of them answers a 404 the identifier did parse but no
stored document carries it. -/
theorem invalid_id_400_and_404_only_when_missing :
    (∀ s now st, parseObjectId s = none →
        toggle_task s now st = (.error (.badRequest "Invalid task id"), st)) ∧
    (∀ s p now st, parseObjectId s = none →
        update_task s p now st = (.error (.badRequest "Invalid task id"), st)) ∧
    (∀ s st, parseObjectId s = none →
        delete_task s st = (.error (.badRequest "Invalid task id"), st)) ∧
    (∀ s now st m, (toggle_task s now st).1 = .error (.notFound m) →
        ∃ oid, parseObjectId s = some oid ∧ storedFields st oid = none) ∧
    (∀ s p now st m, (update_task s p now st).1 = .error (.notFound m) →
        ∃ oid, parseObjectId s = some oid ∧ storedFields st oid = none) ∧
    (∀ s st m, (delete_task s st).1 = .error (.notFound m) →
        ∃ oid, parseObjectId s = some oid ∧ storedFields st oid = none) := by
  refine ⟨?_, ?_, ?_, ?_, ?_, ?_⟩
  · exact fun s now st h => toggle_task_unparsed s now st h
  · exact fun s p now st h => update_task_unparsed s p now st h
  · exact fun s st h => delete_task_unparsed s st h
  · intro s now st m h
    cases hp : parseObjectId s with
    | none =>
        rw [toggle_task_unparsed s now st hp] at h
        simp at h
    | some oid =>
        rw [toggle_task_parsed s oid now st hp] at h
        refine ⟨oid, rfl, ?_⟩
        rw [findOne_eq_storedFields] at h
        cases hs : storedFields st oid with
        | none => rfl
        | some fields => rw [hs] at h; simp at h
  · intro s p now st m h
    cases hp : parseObjectId s with
    | none =>
        rw [update_task_unparsed s p now st hp] at h
        simp at h
    | some oid =>
        rw [update_task_parsed s oid p now st hp] at h
        refine ⟨oid, rfl, ?_⟩
        by_cases hud : updateData p = []
        · rw [if_pos hud] at h; simp at h
        · rw [if_neg hud] at h
          cases hs : storedFields st oid with
          | none => rfl
          | some fields =>
              obtain ⟨_, hm⟩ := storedFields_updateOne st oid
                (setKey (updateData p) "updated_at" (.dt now)) fields hs
              simp only [hm] at h
              simp at h
  · intro s st m h
    cases hp : parseObjectId s with
    | none =>
        rw [delete_task_unparsed s st hp] at h
        simp at h
    | some oid =>
        rw [delete_task_parsed s oid st hp] at h
        refine ⟨oid, rfl, ?_⟩
        cases hs : storedFields st oid with
        | none => rfl
        | some fields =>
            rw [deleteOne_of_some st oid fields hs] at h
            simp at h

theorem invalid_id_400_and_404_only_when_missing_witness :
    toggle_task "nope" 3 ⟨[], 0⟩ = (.error (.badRequest "Invalid task id"), ⟨[], 0⟩) ∧
    update_task "nope" ⟨some "t", none, none, none⟩ 3 ⟨[], 0⟩
      = (.error (.badRequest "Invalid task id"), ⟨[], 0⟩) ∧
    delete_task "nope" ⟨[], 0⟩ = (.error (.badRequest "Invalid task id"), ⟨[], 0⟩) ∧
    (∃ oid, parseObjectId (oidToString 2) = some oid ∧
        storedFields (⟨[], 0⟩ : StoreState) oid = none) :=
  ⟨invalid_id_400_and_404_only_when_missing.1 "nope" 3 ⟨[], 0⟩ rfl,
   invalid_id_400_and_404_only_when_missing.2.1 "nope" ⟨some "t", none, none, none⟩
     3 ⟨[], 0⟩ rfl,
   invalid_id_400_and_404_only_when_missing.2.2.1 "nope" ⟨[], 0⟩ rfl,
   invalid_id_400_and_404_only_when_missing.2.2.2.1 (oidToString 2) 3 ⟨[], 0⟩
     "Task not found" rfl⟩

/-- C8: deleting a well-formed identifier that matches no stored document
answers 404 with nothing removed, and deleting the same stored task twice in
a row answers `{success: true}` first and 404 second. -/
theorem delete_missing_404_and_delete_twice
    (s : String) (st : StoreState) (oid : Nat)
    (hpid : parseObjectId s = some oid) :
    (storedFields st oid = none →
       delete_task s st = (.error (.notFound "Task not found"), st)) ∧
    (∀ fields, storedFields st oid = some fields →
       (st.docs.map Prod.fst).Nodup →
       (delete_task s st).1 = .ok true ∧
       delete_task s (delete_task s st).2
         = (.error (.notFound "Task not found"), (delete_task s st).2)) := by
  constructor
  · intro hnone
    rw [delete_task_parsed s oid st hpid, deleteOne_of_none st oid hnone]
    simp
  · intro fields hsome hnd
    have hdel : delete_task s st
        = (.ok true, { st with docs := removeFirst st.docs oid }) := by
      rw [delete_task_parsed s oid st hpid, deleteOne_of_some st oid fields hsome]
      simp
    refine ⟨by rw [hdel], ?_⟩
    rw [hdel]
    have hmiss := storedFields_removeFirst_none st oid hnd
    rw [delete_task_parsed s oid _ hpid, deleteOne_of_none _ oid hmiss]
    simp

theorem delete_missing_404_and_delete_twice_witness :
    (delete_task (oidToString 3) ⟨[(3, [("title", .str "a")])], 4⟩).1 = .ok true ∧
    delete_task (oidToString 3)
        (delete_task (oidToString 3) ⟨[(3, [("title", .str "a")])], 4⟩).2
      = (.error (.notFound "Task not found"),
         (delete_task (oidToString 3) ⟨[(3, [("title", .str "a")])], 4⟩).2) :=
  (delete_missing_404_and_delete_twice (oidToString 3)
      ⟨[(3, [("title", .str "a")])], 4⟩ 3
      (parseObjectId_oidToString 3 (by norm_num))).2
    [("title", .str "a")] rfl (by decide)

theorem update_task_success (s : String) (oid : Nat) (p : TaskUpdate) (now : Nat)
    (st : StoreState) (fields : Doc)
    (hpid : parseObjectId s = some oid)
    (hdoc : storedFields st oid = some fields)
    (hne : updateData p ≠ []) :
    update_task s p now st =
      (.ok (serialize_doc (findOne
          (updateOne st oid (setKey (updateData p) "updated_at" (.dt now))).2 oid)),
       (updateOne st oid (setKey (updateData p) "updated_at" (.dt now))).2) := by
  rw [update_task_parsed s oid p now st hpid, if_neg hne]
  obtain ⟨_, hm⟩ := storedFields_updateOne st oid
    (setKey (updateData p) "updated_at" (.dt now)) fields hdoc
  simp only [hm]
  norm_num

theorem toggle_task_success (s : String) (oid now : Nat) (st : StoreState)
    (fields : Doc) (hpid : parseObjectId s = some oid)
    (hdoc : storedFields st oid = some fields) :
    toggle_task s now st =
      (.ok (serialize_doc (findOne
          (updateOne st oid
            [("completed", .bool (!truthy (getD (("_id", Value.oid oid) :: fields)
                "completed" (.bool false)))),
             ("updated_at", .dt now)]).2 oid)),
       (updateOne st oid
          [("completed", .bool (!truthy (getD (("_id", Value.oid oid) :: fields)
              "completed" (.bool false)))),
           ("updated_at", .dt now)]).2) := by
  rw [toggle_task_parsed s oid now st hpid, findOne_eq_storedFields, hdoc]
  rfl

/-- C1: for a successful update, every request-body field explicitly set to a
non-absent value is applied to the stored document, and every request-body
field omitted (absent, i.e. `None` after `model_dump`) is left untouched. -/
theorem update_task_applies_provided_preserves_omitted
    (task_id : String) (p : TaskUpdate) (now : Nat) (st : StoreState)
    (oid : Nat) (fields : Doc)
    (hpid : parseObjectId task_id = some oid)
    (hdoc : storedFields st oid = some fields)
    (hne : updateData p ≠ []) :
    ∃ fields',
      storedFields (update_task task_id p now st).2 oid = some fields' ∧
      (∀ kv ∈ dumpUpdate p,
        (∀ v, kv.2 = some v → getKey fields' kv.1 = some v) ∧
        (kv.2 = none → getKey fields' kv.1 = getKey fields kv.1)) := by
  have hstep := update_task_success task_id oid p now st fields hpid hdoc hne
  obtain ⟨hsf, _⟩ := storedFields_updateOne st oid
    (setKey (updateData p) "updated_at" (.dt now)) fields hdoc
  refine ⟨applySet fields (setKey (updateData p) "updated_at" (.dt now)), ?_, ?_⟩
  · rw [hstep]
    exact hsf
  · intro kv hkv
    have hkvne : kv.1 ≠ "updated_at" := dumpUpdate_key_ne_updated_at p kv hkv
    have happ : setKey (updateData p) "updated_at" (.dt now)
        = updateData p ++ [("updated_at", .dt now)] :=
      setKey_not_mem_eq_append _ _ _ (updated_at_not_mem_updateData p)
    have hnodup : ((setKey (updateData p) "updated_at" (.dt now)).map Prod.fst).Nodup :=
      nodup_keys_setKey _ _ _ (updateData_keys_nodup p)
    constructor
    · intro v hv
      have hmem : (kv.1, v) ∈ setKey (updateData p) "updated_at" (.dt now) := by
        rw [happ]
        exact List.mem_append_left _ (mem_updateData_of_some p kv hkv v hv)
      exact getKey_applySet_mem fields _ kv.1 v hnodup hmem
    · intro hv
      have hnm : kv.1 ∉ (setKey (updateData p) "updated_at" (.dt now)).map Prod.fst := by
        rw [happ]
        simp only [List.map_append, List.mem_append]
        rintro (h | h)
        · exact not_mem_updateData_of_none p kv hkv hv h
        · simp only [List.map_cons, List.map_nil, List.mem_singleton] at h
          exact hkvne h
      exact getKey_applySet_not_mem fields _ kv.1 hnm

theorem update_task_applies_provided_preserves_omitted_witness :
    ∃ fields',
      storedFields (update_task (oidToString 0) ⟨some "b", none, none, some true⟩ 9
          ⟨[(0, [("title", .str "a"), ("notes", .null)])], 1⟩).2 0 = some fields' ∧
      (∀ kv ∈ dumpUpdate (⟨some "b", none, none, some true⟩ : TaskUpdate),
        (∀ v, kv.2 = some v → getKey fields' kv.1 = some v) ∧
        (kv.2 = none → getKey fields' kv.1
            = getKey [("title", .str "a"), ("notes", .null)] kv.1)) :=
  update_task_applies_provided_preserves_omitted (oidToString 0)
    ⟨some "b", none, none, some true⟩ 9
    ⟨[(0, [("title", .str "a"), ("notes", .null)])], 1⟩ 0
    [("title", .str "a"), ("notes", .null)]
    (parseObjectId_oidToString 0 (by norm_num)) rfl (by decide)

/-- C10: an update whose body carries `completed=false` stores boolean `false`
on the matching document: the filter of line 138 keeps every explicitly
provided non-`None` value (booleans `false`, empty strings included) and
drops exactly the fields whose dumped value is `None`. -/
theorem update_filter_keeps_explicit_false
    (task_id : String) (p : TaskUpdate) (now : Nat) (st : StoreState)
    (oid : Nat) (fields : Doc)
    (hpid : parseObjectId task_id = some oid)
    (hdoc : storedFields st oid = some fields)
    (hc : p.completed = some false) :
    ∃ fields',
      storedFields (update_task task_id p now st).2 oid = some fields' ∧
      getKey fields' "completed" = some (.bool false) ∧
      (∀ kv ∈ dumpUpdate p, kv.1 ∈ (updateData p).map Prod.fst ↔ kv.2 ≠ none) := by
  have hkvdump : ("completed", p.completed.map Value.bool) ∈ dumpUpdate p := by
    simp [dumpUpdate]
  have hmemc : ("completed", Value.bool false) ∈ updateData p := by
    have := mem_updateData_of_some p ("completed", p.completed.map Value.bool)
      hkvdump (Value.bool false) (by rw [hc]; rfl)
    exact this
  have hne : updateData p ≠ [] := List.ne_nil_of_mem hmemc
  have hstep := update_task_success task_id oid p now st fields hpid hdoc hne
  obtain ⟨hsf, _⟩ := storedFields_updateOne st oid
    (setKey (updateData p) "updated_at" (.dt now)) fields hdoc
  refine ⟨applySet fields (setKey (updateData p) "updated_at" (.dt now)), ?_, ?_, ?_⟩
  · rw [hstep]
    exact hsf
  · have happ : setKey (updateData p) "updated_at" (.dt now)
        = updateData p ++ [("updated_at", .dt now)] :=
      setKey_not_mem_eq_append _ _ _ (updated_at_not_mem_updateData p)
    have hnodup : ((setKey (updateData p) "updated_at" (.dt now)).map Prod.fst).Nodup :=
      nodup_keys_setKey _ _ _ (updateData_keys_nodup p)
    have hmem : ("completed", Value.bool false)
        ∈ setKey (updateData p) "updated_at" (.dt now) := by
      rw [happ]
      exact List.mem_append_left _ hmemc
    exact getKey_applySet_mem fields _ "completed" (Value.bool false) hnodup hmem
  · intro kv hkv
    exact mem_updateData_keys_iff p kv hkv

theorem update_filter_keeps_explicit_false_witness :
    ∃ fields',
      storedFields (update_task (oidToString 4) ⟨none, none, none, some false⟩ 9
          ⟨[(4, [("title", .str "a"), ("completed", .bool true)])], 5⟩).2 4
        = some fields' ∧
      getKey fields' "completed" = some (.bool false) ∧
      (∀ kv ∈ dumpUpdate (⟨none, none, none, some false⟩ : TaskUpdate),
        kv.1 ∈ (updateData (⟨none, none, none, some false⟩ : TaskUpdate)).map Prod.fst
          ↔ kv.2 ≠ none) :=
  update_filter_keeps_explicit_false (oidToString 4)
    ⟨none, none, none, some false⟩ 9
    ⟨[(4, [("title", .str "a"), ("completed", .bool true)])], 5⟩ 4
    [("title", .str "a"), ("completed", .bool true)]
    (parseObjectId_oidToString 4 (by norm_num)) rfl rfl

theorem toggle_task_flips (s : String) (oid now : Nat) (st : StoreState)
    (fields : Doc) (b : Bool)
    (hpid : parseObjectId s = some oid)
    (hdoc : storedFields st oid = some fields)
    (hcomp : getKey fields "completed" = some (.bool b)) :
    storedFields (toggle_task s now st).2 oid
        = some (applySet fields
            [("completed", .bool (!b)), ("updated_at", .dt now)]) ∧
    getKey (applySet fields [("completed", .bool (!b)), ("updated_at", .dt now)])
        "completed" = some (.bool (!b)) := by
  have hget : getD (("_id", Value.oid oid) :: fields) "completed" (.bool false)
      = .bool b := by
    unfold getD
    show ((if ("_id" : String) = "completed" then some (Value.oid oid)
          else getKey fields "completed")).getD (.bool false) = .bool b
    rw [if_neg (by decide), hcomp]
    rfl
  have hstep := toggle_task_success s oid now st fields hpid hdoc
  rw [hget] at hstep
  have htr : truthy (Value.bool b) = b := rfl
  rw [htr] at hstep
  constructor
  · rw [hstep]
    exact (storedFields_updateOne st oid
      [("completed", .bool (!b)), ("updated_at", .dt now)] fields hdoc).1
  · refine getKey_applySet_mem fields _ "completed" (.bool (!b)) ?_ ?_
    · show (["completed", "updated_at"] : List String).Nodup
      decide
    · simp

/-- C5: toggling a stored task twice in succession, with no interleaved
operation, returns its `completed` field to its original boolean value. -/
theorem toggle_twice_restores_completed
    (task_id : String) (now1 now2 : Nat) (st : StoreState) (oid : Nat)
    (fields : Doc) (b : Bool)
    (hpid : parseObjectId task_id = some oid)
    (hdoc : storedFields st oid = some fields)
    (hcomp : getKey fields "completed" = some (.bool b)) :
    ∃ fields',
      storedFields (toggle_task task_id now2 (toggle_task task_id now1 st).2).2 oid
        = some fields' ∧
      getKey fields' "completed" = some (.bool b) := by
  obtain ⟨hsf1, hc1⟩ := toggle_task_flips task_id oid now1 st fields b hpid hdoc hcomp
  obtain ⟨hsf2, hc2⟩ := toggle_task_flips task_id oid now2 (toggle_task task_id now1 st).2
    (applySet fields [("completed", .bool (!b)), ("updated_at", .dt now1)]) (!b)
    hpid hsf1 hc1
  refine ⟨_, hsf2, ?_⟩
  rw [hc2, Bool.not_not]

theorem toggle_twice_restores_completed_witness :
    ∃ fields',
      storedFields (toggle_task (oidToString 1) 8
          (toggle_task (oidToString 1) 7
            ⟨[(1, [("title", .str "a"), ("completed", .bool true)])], 2⟩).2).2 1
        = some fields' ∧
      getKey fields' "completed" = some (.bool true) :=
  toggle_twice_restores_completed (oidToString 1) 7 8
    ⟨[(1, [("title", .str "a"), ("completed", .bool true)])], 2⟩ 1
    [("title", .str "a"), ("completed", .bool true)] true
    (parseObjectId_oidToString 1 (by norm_num)) rfl rfl

theorem create_task_state (payload : TaskCreate) (now : Nat) (st : StoreState) :
    (create_task payload now st).2 =
      { docs := st.docs ++ [(st.nextId,
          [("title", .str payload.title), ("notes", optStr payload.notes),
           ("due_at", optDt payload.due_at), ("completed", .bool false),
           ("created_at", .dt now), ("updated_at", .dt now)])],
        nextId := st.nextId + 1 } := rfl

theorem create_task_stored (payload : TaskCreate) (now : Nat) (st : StoreState)
    (hinv : ∀ q ∈ st.docs, q.1 < st.nextId) :
    storedFields (create_task payload now st).2 st.nextId =
      some [("title", .str payload.title), ("notes", optStr payload.notes),
            ("due_at", optDt payload.due_at), ("completed", .bool false),
            ("created_at", .dt now), ("updated_at", .dt now)] := by
  rw [create_task_state]
  show ((st.docs ++ [(st.nextId,
      [("title", .str payload.title), ("notes", optStr payload.notes),
       ("due_at", optDt payload.due_at), ("completed", .bool false),
       ("created_at", .dt now), ("updated_at", .dt now)])]).find?
        (fun p => p.1 = st.nextId)).map Prod.snd = _
  rw [find?_append_new st.docs st.nextId _ (fun p hp => (hinv p hp).ne)]
  rfl

/-- C6: every mutating operation stamps the stored document's `updated_at`
with the current time: create stores it at creation, and successful toggle
and update both `$set` it. -/
theorem mutations_set_updated_at :
    (∀ payload now st, (∀ q ∈ st.docs, q.1 < st.nextId) →
        taskField (create_task payload now st).2 st.nextId "updated_at"
          = some (.dt now)) ∧
    (∀ s oid now st fields, parseObjectId s = some oid →
        storedFields st oid = some fields →
        taskField (toggle_task s now st).2 oid "updated_at" = some (.dt now)) ∧
    (∀ s p oid now st fields, parseObjectId s = some oid →
        storedFields st oid = some fields → updateData p ≠ [] →
        taskField (update_task s p now st).2 oid "updated_at" = some (.dt now)) := by
  refine ⟨?_, ?_, ?_⟩
  · intro payload now st hinv
    unfold taskField
    rw [create_task_stored payload now st hinv]
    rfl
  · intro s oid now st fields hpid hdoc
    have hstep := toggle_task_success s oid now st fields hpid hdoc
    obtain ⟨hsf, _⟩ := storedFields_updateOne st oid
      [("completed", .bool (!truthy (getD (("_id", Value.oid oid) :: fields)
          "completed" (.bool false)))), ("updated_at", .dt now)] fields hdoc
    have hst : storedFields (toggle_task s now st).2 oid
        = some (applySet fields
            [("completed", .bool (!truthy (getD (("_id", Value.oid oid) :: fields)
                "completed" (.bool false)))), ("updated_at", .dt now)]) := by
      rw [hstep]
      exact hsf
    unfold taskField
    rw [hst]
    refine getKey_applySet_mem fields _ "updated_at" (.dt now) ?_ (by simp)
    show (["completed", "updated_at"] : List String).Nodup
    decide
  · intro s p oid now st fields hpid hdoc hne
    have hstep := update_task_success s oid p now st fields hpid hdoc hne
    obtain ⟨hsf, _⟩ := storedFields_updateOne st oid
      (setKey (updateData p) "updated_at" (.dt now)) fields hdoc
    have hst : storedFields (update_task s p now st).2 oid
        = some (applySet fields (setKey (updateData p) "updated_at" (.dt now))) := by
      rw [hstep]
      exact hsf
    unfold taskField
    rw [hst]
    have happ : setKey (updateData p) "updated_at" (.dt now)
        = updateData p ++ [("updated_at", .dt now)] :=
      setKey_not_mem_eq_append _ _ _ (updated_at_not_mem_updateData p)
    refine getKey_applySet_mem fields _ "updated_at" (.dt now)
      (nodup_keys_setKey _ _ _ (updateData_keys_nodup p)) ?_
    rw [happ]
    exact List.mem_append_right _ (List.mem_singleton.mpr rfl)

theorem mutations_set_updated_at_witness :
    taskField (create_task ⟨"t", none, none⟩ 11 ⟨[], 0⟩).2 0 "updated_at"
      = some (.dt 11) ∧
    taskField (toggle_task (oidToString 0) 12
        ⟨[(0, [("completed", .bool false)])], 1⟩).2 0 "updated_at"
      = some (.dt 12) ∧
    taskField (update_task (oidToString 0) ⟨some "u", none, none, none⟩ 13
        ⟨[(0, [("title", .str "t")])], 1⟩).2 0 "updated_at"
      = some (.dt 13) :=
  ⟨mutations_set_updated_at.1 ⟨"t", none, none⟩ 11 ⟨[], 0⟩ (by simp),
   mutations_set_updated_at.2.1 (oidToString 0) 0 12
     ⟨[(0, [("completed", .bool false)])], 1⟩ [("completed", .bool false)]
     (parseObjectId_oidToString 0 (by norm_num)) rfl,
   mutations_set_updated_at.2.2 (oidToString 0) ⟨some "u", none, none, none⟩ 0 13
     ⟨[(0, [("title", .str "t")])], 1⟩ [("title", .str "t")]
     (parseObjectId_oidToString 0 (by norm_num)) rfl (by decide)⟩

theorem serializeCore_of_oid (d : Doc) (n : Nat)
    (hid : getKey d "_id" = some (.oid n)) :
    serializeCore d
      = serializeFields (delKey (setKey d "id" (.str (oidToString n))) "_id") := by
  unfold serializeCore
  rw [hid]

theorem create_task_response (payload : TaskCreate) (now : Nat) (st : StoreState)
    (hinv : ∀ q ∈ st.docs, q.1 < st.nextId) :
    (create_task payload now st).1
      = some (serializeCore (("_id", Value.oid st.nextId) ::
          [("title", .str payload.title), ("notes", optStr payload.notes),
           ("due_at", optDt payload.due_at), ("completed", .bool false),
           ("created_at", .dt now), ("updated_at", .dt now)])) := by
  have hf : findOne (create_task payload now st).2 st.nextId
      = some (("_id", Value.oid st.nextId) ::
          [("title", .str payload.title), ("notes", optStr payload.notes),
           ("due_at", optDt payload.due_at), ("completed", .bool false),
           ("created_at", .dt now), ("updated_at", .dt now)]) := by
    rw [findOne_eq_storedFields, create_task_stored payload now st hinv]
    rfl
  show serialize_doc (findOne (create_task payload now st).2 st.nextId) = _
  rw [hf]
  rfl

/-- C4: a valid create persists a task with `completed=false`, re-fetches the
stored document by the returned identifier and answers the serialization of
that stored document (not the input echoed back); the response always carries
`completed=false` and a non-empty string `id` distinct from every previously
issued identifier. -/
theorem create_task_spec (payload : TaskCreate) (now : Nat) (st : StoreState)
    (hinv : ∀ q ∈ st.docs, q.1 < st.nextId)
    (_htitle : 1 ≤ payload.title.length ∧ payload.title.length ≤ 200) :
    ∃ fields resp,
      storedFields (create_task payload now st).2 st.nextId = some fields ∧
      getKey fields "completed" = some (.bool false) ∧
      (create_task payload now st).1
        = serialize_doc (findOne (create_task payload now st).2 st.nextId) ∧
      (create_task payload now st).1 = some resp ∧
      getKey resp "completed" = some (.bool false) ∧
      getKey resp "id" = some (.str (oidToString st.nextId)) ∧
      oidToString st.nextId ≠ "" ∧
      (∀ m, m < st.nextId → st.nextId < 16 ^ 24 →
          oidToString st.nextId ≠ oidToString m) := by
  have hsc := serializeCore_of_oid
    (("_id", Value.oid st.nextId) ::
      [("title", .str payload.title), ("notes", optStr payload.notes),
       ("due_at", optDt payload.due_at), ("completed", .bool false),
       ("created_at", .dt now), ("updated_at", .dt now)]) st.nextId rfl
  refine ⟨_, serializeCore (("_id", Value.oid st.nextId) ::
      [("title", .str payload.title), ("notes", optStr payload.notes),
       ("due_at", optDt payload.due_at), ("completed", .bool false),
       ("created_at", .dt now), ("updated_at", .dt now)]),
    create_task_stored payload now st hinv, rfl, rfl,
    create_task_response payload now st hinv, ?_, ?_,
    oidToString_ne_empty _, ?_⟩
  · rw [hsc, getKey_serializeFields,
      getKey_delKey_ne _ _ _ (by decide),
      getKey_setKey_ne _ _ _ _ (by decide)]
    rfl
  · rw [hsc, getKey_serializeFields,
      getKey_delKey_ne _ _ _ (by decide),
      getKey_setKey_self]
    rfl
  · intro m hm h16 heq
    exact absurd (oidToString_injOn st.nextId m h16 (hm.trans h16) heq) hm.ne'


theorem create_task_spec_witness :
    ∃ fields resp,
      storedFields (create_task ⟨"Buy milk", none, none⟩ 21 ⟨[], 0⟩).2 0
        = some fields ∧
      getKey fields "completed" = some (.bool false) ∧
      (create_task ⟨"Buy milk", none, none⟩ 21 ⟨[], 0⟩).1
        = serialize_doc (findOne (create_task ⟨"Buy milk", none, none⟩ 21 ⟨[], 0⟩).2 0) ∧
      (create_task ⟨"Buy milk", none, none⟩ 21 ⟨[], 0⟩).1 = some resp ∧
      getKey resp "completed" = some (.bool false) ∧
      getKey resp "id" = some (.str (oidToString 0)) ∧
      oidToString 0 ≠ "" ∧
      (∀ m, m < 0 → 0 < 16 ^ 24 → oidToString 0 ≠ oidToString m) :=
  create_task_spec ⟨"Buy milk", none, none⟩ 21 ⟨[], 0⟩ (by simp) (by decide)

/-- C3: `serialize_doc` on a stored document (a dict whose `_id` is a native
ObjectId) rewrites the identifier as a string under key `id` and removes
`_id`, rewrites every datetime value to its ISO-8601 string, passes all other
fields through unchanged, and is the identity on `None`/empty input; it is a
pure transform (the embedding returns a new dict and touches no state). -/
theorem serialize_doc_spec (d : Doc) (n : Nat)
    (hnd : (d.map Prod.fst).Nodup)
    (hid : getKey d "_id" = some (.oid n))
    (hne : d ≠ []) :
    serialize_doc (some d) = some (serializeCore d) ∧
    getKey (serializeCore d) "id" = some (.str (oidToString n)) ∧
    getKey (serializeCore d) "_id" = none ∧
    (∀ k t, k ≠ "_id" → k ≠ "id" → getKey d k = some (.dt t) →
        getKey (serializeCore d) k = some (.str (isoformat t))) ∧
    (∀ k v, k ≠ "_id" → k ≠ "id" → getKey d k = some v → (∀ t, v ≠ .dt t) →
        getKey (serializeCore d) k = some v) ∧
    serialize_doc none = none ∧ serialize_doc (some []) = some [] := by
  have hsc := serializeCore_of_oid d n hid
  refine ⟨?_, ?_, ?_, ?_, ?_, rfl, rfl⟩
  · show (if d = [] then some d else some (serializeCore d)) = some (serializeCore d)
    rw [if_neg hne]
  · rw [hsc, getKey_serializeFields, getKey_delKey_ne _ _ _ (by decide),
      getKey_setKey_self]
    rfl
  · rw [hsc, getKey_serializeFields,
      getKey_delKey_self _ _ (nodup_keys_setKey _ _ _ hnd)]
    rfl
  · intro k t hk1 hk2 hgd
    rw [hsc, getKey_serializeFields, getKey_delKey_ne _ _ _ hk1,
      getKey_setKey_ne _ _ _ _ hk2, hgd]
    rfl
  · intro k v hk1 hk2 hgd hvdt
    rw [hsc, getKey_serializeFields, getKey_delKey_ne _ _ _ hk1,
      getKey_setKey_ne _ _ _ _ hk2, hgd]
    cases v with
    | oid m => rfl
    | str sv => rfl
    | dt t => exact absurd rfl (hvdt t)
    | bool b => rfl
    | null => rfl

theorem serialize_doc_spec_witness :
    serialize_doc (some [("_id", .oid 5), ("title", .str "x"), ("due_at", .dt 3)])
      = some (serializeCore
          [("_id", .oid 5), ("title", .str "x"), ("due_at", .dt 3)]) ∧
    getKey (serializeCore [("_id", .oid 5), ("title", .str "x"), ("due_at", .dt 3)])
        "id" = some (.str (oidToString 5)) ∧
    getKey (serializeCore [("_id", .oid 5), ("title", .str "x"), ("due_at", .dt 3)])
        "_id" = none ∧
    (∀ k t, k ≠ "_id" → k ≠ "id" →
        getKey [("_id", .oid 5), ("title", .str "x"), ("due_at", .dt 3)] k
          = some (.dt t) →
        getKey (serializeCore [("_id", .oid 5), ("title", .str "x"), ("due_at", .dt 3)]) k
          = some (.str (isoformat t))) ∧
    (∀ k v, k ≠ "_id" → k ≠ "id" →
        getKey [("_id", .oid 5), ("title", .str "x"), ("due_at", .dt 3)] k = some v →
        (∀ t, v ≠ .dt t) →
        getKey (serializeCore [("_id", .oid 5), ("title", .str "x"), ("due_at", .dt 3)]) k
          = some v) ∧
    serialize_doc none = none ∧ serialize_doc (some []) = some [] :=
  serialize_doc_spec [("_id", .oid 5), ("title", .str "x"), ("due_at", .dt 3)] 5
    (by decide) rfl (by decide)

/-- C9: the diagnostics endpoint is total and read-only: for every store
condition it returns a status object with the state untouched, a failing
store is caught and reported as status text (the exception message truncated
to 50 characters), and at most 10 collection names are listed. -/
theorem test_database_safe (dbs : DbState) (env : Env) (st : StoreState) :
    (test_database dbs env st).2 = st ∧
    (test_database dbs env st).1.backend = "✅ Running" ∧
    (test_database dbs env st).1.collections.length ≤ 10 ∧
    (∀ msg, (test_database (.failing msg) env st).1.database
        = "⚠️  Connected but Error: " ++ msg.take 50) := by
  refine ⟨rfl, ?_, ?_, fun msg => rfl⟩
  · cases dbs <;> rfl
  · cases dbs with
    | unavailable => simp [test_database]
    | failing msg => simp [test_database]
    | healthy cols =>
        simp only [test_database, List.length_take]
        omega
